import Mathlib

/-!
Verification of the weather logger (src/weather_logger.py) against its
natural-language specification.

Shallow embedding conventions:
* A log record (one element of the JSON list in the data file) is an
  `Entry`; timestamps are modelled as integers (seconds), so the
  `datetime` comparisons of the source become integer comparisons and
  the ambient wall clock becomes an explicit `now` parameter.
* Python floats are modelled as rationals (`Rat`).
* The network is an oracle passed to the orchestrator; the store (the
  JSON data file) is explicit state threaded through the run.
-/

namespace WeatherLogger

/-- One record of the JSON log, as built by fetch_weather_data:
city, temperature (metric), description, humidity, the two timestamps. -/
structure Entry where
  city : String
  temperature : Rat
  description : String
  humidity : Int
  utc_timestamp : Int
  local_timestamp : Int
deriving Repr, DecidableEq

/-- The case-insensitive location comparison the source writes as
entry['city'].lower() == city.lower(). -/
def matchesCity (city : String) (e : Entry) : Bool :=
  e.city.toLower == city.toLower

/-- Translation of WeatherLogger.is_duplicate_entry (weather_logger.py:81-97):
empty data returns False; otherwise the loop over reversed(data) returns True
as soon as a case-insensitive match has local_timestamp strictly later than
now minus two hours (7200 s), and False if the loop completes. -/
def is_duplicate_entry (city : String) (data : List Entry) (now : Int) : Bool :=
  if data.isEmpty then false
  else data.reverse.any fun e => matchesCity city e && decide (e.local_timestamp > now - 7200)

/-- The greatest element of a list of timestamps, none for the empty list. -/
def maxTime : List Int → Option Int
  | [] => none
  | t :: ts =>
    some (match maxTime ts with
      | none => t
      | some m => max t m)

/-- The local timestamp of the most recent (greatest local-time) observation
whose location matches case-insensitively; none when no entry matches. -/
def mostRecentLocalTime (city : String) (data : List Entry) : Option Int :=
  maxTime ((data.filter (matchesCity city)).map (·.local_timestamp))

theorem maxTime_gt_iff (l : List Int) (c : Int) :
    (∃ t, maxTime l = some t ∧ c < t) ↔ ∃ x ∈ l, c < x := by
  induction l with
  | nil => simp [maxTime]
  | cons t ts ih =>
    cases h : maxTime ts with
    | none =>
      have hts : ¬ ∃ x ∈ ts, c < x := by
        rw [← ih]
        rintro ⟨t', ht', _⟩
        rw [h] at ht'
        exact Option.noConfusion ht'
      simp only [maxTime, h, Option.some.injEq, exists_eq_left', List.mem_cons]
      constructor
      · intro hc
        exact ⟨t, Or.inl rfl, hc⟩
      · rintro ⟨x, hx | hx, hcx⟩
        · exact hx ▸ hcx
        · exact absurd ⟨x, hx, hcx⟩ hts
    | some m =>
      have hts : c < m ↔ ∃ x ∈ ts, c < x := by
        rw [← ih]
        constructor
        · intro hc
          exact ⟨m, h, hc⟩
        · rintro ⟨t', ht', hc⟩
          rw [h] at ht'
          cases ht'
          exact hc
      simp only [maxTime, h, Option.some.injEq, exists_eq_left', List.mem_cons]
      rw [lt_max_iff]
      constructor
      · rintro (hc | hc)
        · exact ⟨t, Or.inl rfl, hc⟩
        · obtain ⟨x, hx, hcx⟩ := hts.mp hc
          exact ⟨x, Or.inr hx, hcx⟩
      · rintro ⟨x, hx | hx, hcx⟩
        · exact Or.inl (hx ▸ hcx)
        · exact Or.inr (hts.mpr ⟨x, hx, hcx⟩)

/-- C1: the dedup decision (is_duplicate_entry, whose negation plays the
spec's needs_fetch) skips a fetch exactly when the most recent matching
observation — the case-insensitive match with greatest local timestamp —
lies strictly within the 2-hour window before now (now - t < 7200, strict,
so a match exactly at the window edge still forces a fetch); an empty log
or an absent match yields a fetch. -/
theorem is_duplicate_iff_most_recent (city : String) (data : List Entry) (now : Int) :
    is_duplicate_entry city data now = true ↔
      ∃ t, mostRecentLocalTime city data = some t ∧ now - t < 7200 := by
  have key : (∃ t, mostRecentLocalTime city data = some t ∧ now - 7200 < t) ↔
      ∃ e ∈ data, matchesCity city e = true ∧ now - 7200 < e.local_timestamp := by
    rw [mostRecentLocalTime, maxTime_gt_iff]
    constructor
    · rintro ⟨x, hx, hcx⟩
      obtain ⟨e, he, rfl⟩ := List.mem_map.mp hx
      obtain ⟨he', hm⟩ := List.mem_filter.mp he
      exact ⟨e, he', hm, hcx⟩
    · rintro ⟨e, he, hm, hc⟩
      exact ⟨e.local_timestamp, List.mem_map.mpr ⟨e, List.mem_filter.mpr ⟨he, hm⟩, rfl⟩, hc⟩
  rw [is_duplicate_entry]
  split
  · rename_i h
    rw [List.isEmpty_iff] at h
    subst h
    simp [mostRecentLocalTime, maxTime]
  · rw [List.any_eq_true]
    constructor
    · rintro ⟨e, he, hp⟩
      rw [List.mem_reverse] at he
      rw [Bool.and_eq_true, decide_eq_true_eq] at hp
      obtain ⟨t, ht, hc⟩ := key.mpr ⟨e, he, hp.1, by omega⟩
      exact ⟨t, ht, by omega⟩
    · rintro ⟨t, ht, hc⟩
      obtain ⟨e, he, hm, hc'⟩ := key.mp ⟨t, ht, by omega⟩
      refine ⟨e, List.mem_reverse.mpr he, ?_⟩
      rw [Bool.and_eq_true, decide_eq_true_eq]
      exact ⟨hm, by omega⟩

/-! Orchestrator model: fetch_and_log_weather (weather_logger.py:99-130).
The per-city coroutine result, as asyncio.gather with return_exceptions=True
delivers it: the dict fetch_weather_data returned, the None it returned on
any error, or a captured exception.  gather preserves argument order, so
the results list is in task-creation order. -/

inductive FetchOutcome where
  | got (e : Entry)
  | got_none
  | raised (msg : String)
deriving Repr, DecidableEq

/-- One line of console output the run emits: the Skipping line of the
task-building loop, the Logged line for a dict result, or the Error line
for a captured exception (a None result prints nothing in the run). -/
inductive Event where
  | skip (city : String)
  | logged (city : String) (temperature : Rat) (description : String)
  | gatherError (msg : String)
deriving Repr, DecidableEq

/-- Observable outcome of one run: the contents of the data file afterwards,
how many times save_data wrote it, and the console lines the run printed. -/
structure RunState where
  log : List Entry
  writes : Nat
  events : List Event
deriving Repr, DecidableEq

/-- The cities the loop at weather_logger.py:110-114 builds a fetch task for:
those with force_update or no recent duplicate. -/
def taskCities (cities : List String) (data : List Entry) (force : Bool) (now : Int) :
    List String :=
  cities.filter fun c => force || !is_duplicate_entry c data now

/-- The cities the same loop skips (prints the Skipping line for). -/
def skippedCities (cities : List String) (data : List Entry) (force : Bool) (now : Int) :
    List String :=
  cities.filter fun c => !(force || !is_duplicate_entry c data now)

/-- The dict payload of a gather result, none for a None or an exception. -/
def entryOf : FetchOutcome → Option Entry
  | .got e => some e
  | .got_none => none
  | .raised _ => none

/-- The observations the results loop (weather_logger.py:119-123) appends to
the in-memory list, in gather (= task-creation) order. -/
def fetchedEntries (cities : List String) (force : Bool) (fetch : String → FetchOutcome)
    (data : List Entry) (now : Int) : List Entry :=
  ((taskCities cities data force now).map fetch).filterMap entryOf

/-- Console lines of the results loop: a Logged line per dict, an Error line
per captured exception, nothing for a None. -/
def resultEvents (results : List FetchOutcome) : List Event :=
  results.filterMap fun r =>
    match r with
    | .got e => some (.logged e.city e.temperature e.description)
    | .raised m => some (.gatherError m)
    | .got_none => none

/-- Translation of WeatherLogger.fetch_and_log_weather (weather_logger.py:99-130):
load the log once, build the task list (skipping recent duplicates unless
force_update), gather the fetches, append each dict result, and — only when
there was at least one task — write the whole list back with one save_data
call; with no tasks the file is untouched. -/
def fetch_and_log_weather (cities : List String) (force_update : Bool)
    (fetch : String → FetchOutcome) (fileLog : List Entry) (now : Int) : RunState :=
  let data := fileLog
  let tasks := taskCities cities data force_update now
  let skipEvents := (skippedCities cities data force_update now).map Event.skip
  if tasks.isEmpty then
    { log := data, writes := 0, events := skipEvents }
  else
    { log := data ++ fetchedEntries cities force_update fetch data now
      writes := 1
      events := skipEvents ++ resultEvents (tasks.map fetch) }

/-- Number of fetch_weather_data calls a run issues: one per gathered task. -/
def fetchCalls (cities : List String) (force : Bool) (fetch : String → FetchOutcome)
    (data : List Entry) (now : Int) : Nat :=
  ((taskCities cities data force now).map fetch).length

theorem run_log_eq (cities : List String) (force : Bool) (fetch : String → FetchOutcome)
    (fileLog : List Entry) (now : Int) :
    (fetch_and_log_weather cities force fetch fileLog now).log
      = fileLog ++ fetchedEntries cities force fetch fileLog now := by
  rw [fetch_and_log_weather]
  split
  · rename_i h
    rw [List.isEmpty_iff] at h
    simp [fetchedEntries, h]
  · rfl

/-- C2: a run writes the store at most once (a single save_data call when
there was any task, none otherwise), and the resulting file contents are the
pre-run log followed by exactly the run's successful observations, in the
order they were passed to the write. -/
theorem run_single_batch_write (cities : List String) (force : Bool)
    (fetch : String → FetchOutcome) (fileLog : List Entry) (now : Int) :
    (fetch_and_log_weather cities force fetch fileLog now).writes ≤ 1 ∧
    (fetch_and_log_weather cities force fetch fileLog now).log
      = fileLog ++ fetchedEntries cities force fetch fileLog now ∧
    ((fetch_and_log_weather cities force fetch fileLog now).log).take fileLog.length
      = fileLog ∧
    ((fetch_and_log_weather cities force fetch fileLog now).log).drop fileLog.length
      = fetchedEntries cities force fetch fileLog now := by
  refine ⟨?_, run_log_eq .., ?_, ?_⟩
  · rw [fetch_and_log_weather]
    split <;> simp
  · rw [run_log_eq, List.take_left]
  · rw [run_log_eq, List.drop_left]

/-- C3: a failing fetch does not affect its siblings — any city that was
fetched (in the task list) and whose fetch returned an observation has that
observation in the persisted log, whatever the other fetches did. -/
theorem partial_failure_independent (cities : List String) (force : Bool)
    (fetch : String → FetchOutcome) (fileLog : List Entry) (now : Int)
    (c : String) (e : Entry)
    (hc : c ∈ cities)
    (hrun : force = true ∨ is_duplicate_entry c fileLog now = false)
    (hf : fetch c = .got e) :
    e ∈ fetchedEntries cities force fetch fileLog now ∧
    e ∈ (fetch_and_log_weather cities force fetch fileLog now).log := by
  have htask : c ∈ taskCities cities fileLog force now := by
    rw [taskCities, List.mem_filter]
    refine ⟨hc, ?_⟩
    rcases hrun with h | h <;> simp [h]
  have hmem : e ∈ fetchedEntries cities force fetch fileLog now := by
    rw [fetchedEntries]
    exact List.mem_filterMap.mpr ⟨fetch c, List.mem_map_of_mem fetch htask, by rw [hf]; rfl⟩
  exact ⟨hmem, by rw [run_log_eq]; exact List.mem_append_right _ hmem⟩

/-- Entry and oracle used to instantiate the partial-failure theorem. -/
def parisEntry : Entry :=
  { city := "Paris", temperature := 21, description := "sunny", humidity := 40
    utc_timestamp := 1000, local_timestamp := 1000 }

/-- Oracle where Paris succeeds and every other city raises. -/
def parisOrBoom (c : String) : FetchOutcome :=
  if c = "Paris" then .got parisEntry else .raised "boom"

theorem partial_failure_independent_witness :
    parisEntry ∈ fetchedEntries ["Paris", "London"] true parisOrBoom [] 0 ∧
    parisEntry ∈ (fetch_and_log_weather ["Paris", "London"] true parisOrBoom [] 0).log :=
  partial_failure_independent ["Paris", "London"] true parisOrBoom [] 0 "Paris" parisEntry
    (by decide) (Or.inl rfl) (by decide)

/-- C5: with force_update every requested city is a task, none is skipped,
and a run over N cities issues exactly N fetch calls. -/
theorem force_refresh_bypasses (cities : List String) (fetch : String → FetchOutcome)
    (fileLog : List Entry) (now : Int) :
    taskCities cities fileLog true now = cities ∧
    skippedCities cities fileLog true now = [] ∧
    fetchCalls cities true fetch fileLog now = cities.length := by
  have ht : taskCities cities fileLog true now = cities := by
    rw [taskCities]
    simp
  refine ⟨ht, ?_, ?_⟩
  · rw [skippedCities]
    simp
  · rw [fetchCalls, List.length_map, ht]

/-! Run reporting.  fetch_and_log_weather returns None in the source; its
only per-location report is the console output modelled by Event.  The
spec-worded RunSummary is defined below for comparison. -/

/-- Cities named by Skipping lines. -/
def skipsOf (evs : List Event) : List String :=
  evs.filterMap fun ev =>
    match ev with
    | .skip c => some c
    | _ => none

/-- (city, temperature, description) triples named by Logged lines. -/
def loggedOf (evs : List Event) : List (String × Rat × String) :=
  evs.filterMap fun ev =>
    match ev with
    | .logged c t d => some (c, t, d)
    | _ => none

/-- Messages named by Error lines (the gather loop's exception branch). -/
def errorsOf (evs : List Event) : List String :=
  evs.filterMap fun ev =>
    match ev with
    | .gatherError m => some m
    | _ => none

/-- The captured-exception messages among a list of gather results. -/
def raisedMessages (results : List FetchOutcome) : List String :=
  results.filterMap fun r =>
    match r with
    | .raised m => some m
    | _ => none

theorem skipsOf_append (a b : List Event) : skipsOf (a ++ b) = skipsOf a ++ skipsOf b :=
  List.filterMap_append ..

theorem loggedOf_append (a b : List Event) : loggedOf (a ++ b) = loggedOf a ++ loggedOf b :=
  List.filterMap_append ..

theorem errorsOf_append (a b : List Event) : errorsOf (a ++ b) = errorsOf a ++ errorsOf b :=
  List.filterMap_append ..

theorem run_events_eq (cities : List String) (force : Bool) (fetch : String → FetchOutcome)
    (fileLog : List Entry) (now : Int) :
    (fetch_and_log_weather cities force fetch fileLog now).events
      = (skippedCities cities fileLog force now).map Event.skip
        ++ resultEvents ((taskCities cities fileLog force now).map fetch) := by
  rw [fetch_and_log_weather]
  split
  · rename_i h
    rw [List.isEmpty_iff] at h
    simp [resultEvents, h]
  · rfl

theorem extract_skipEvents (cs : List String) :
    skipsOf (cs.map Event.skip) = cs ∧ loggedOf (cs.map Event.skip) = [] ∧
    errorsOf (cs.map Event.skip) = [] := by
  induction cs with
  | nil => exact ⟨rfl, rfl, rfl⟩
  | cons c cs ih =>
    obtain ⟨h1, h2, h3⟩ := ih
    refine ⟨?_, ?_, ?_⟩ <;>
      simp only [List.map_cons, skipsOf, loggedOf, errorsOf, List.filterMap_cons] at h1 h2 h3 ⊢ <;>
      simp [h1, h2, h3]

theorem skipsOf_resultEvents (rs : List FetchOutcome) : skipsOf (resultEvents rs) = [] := by
  induction rs with
  | nil => rfl
  | cons r rs ih =>
    cases r <;> simpa [resultEvents, skipsOf, List.filterMap_cons] using ih

theorem loggedOf_resultEvents (rs : List FetchOutcome) :
    loggedOf (resultEvents rs)
      = (rs.filterMap entryOf).map (fun e => (e.city, e.temperature, e.description)) := by
  induction rs with
  | nil => rfl
  | cons r rs ih =>
    cases r <;> simpa [resultEvents, loggedOf, entryOf, List.filterMap_cons] using ih

theorem errorsOf_resultEvents (rs : List FetchOutcome) :
    errorsOf (resultEvents rs) = raisedMessages rs := by
  induction rs with
  | nil => rfl
  | cons r rs ih =>
    cases r <;>
      simpa [resultEvents, errorsOf, raisedMessages, List.filterMap_cons] using ih

/-- Shared description of everything a run reports: Skipping lines name
exactly the deduped cities, Logged lines name exactly the fetched
observations, Error lines name exactly the captured exceptions — so a fetch
that returns None is reported nowhere. -/
theorem run_report_eq (cities : List String) (force : Bool)
    (fetch : String → FetchOutcome) (fileLog : List Entry) (now : Int) :
    skipsOf (fetch_and_log_weather cities force fetch fileLog now).events
      = skippedCities cities fileLog force now ∧
    loggedOf (fetch_and_log_weather cities force fetch fileLog now).events
      = (fetchedEntries cities force fetch fileLog now).map
          (fun e => (e.city, e.temperature, e.description)) ∧
    errorsOf (fetch_and_log_weather cities force fetch fileLog now).events
      = raisedMessages ((taskCities cities fileLog force now).map fetch) := by
  obtain ⟨s1, s2, s3⟩ := extract_skipEvents (skippedCities cities fileLog force now)
  rw [run_events_eq, skipsOf_append, loggedOf_append, errorsOf_append, s1, s2, s3,
    skipsOf_resultEvents, loggedOf_resultEvents, errorsOf_resultEvents]
  simp [fetchedEntries]

/-- The run summary as section 4.3 step 6 of the spec words it.  Defined from
the spec, to be compared with what the code reports. -/
structure RunSummary where
  fetched : List Entry
  skipped : List String
  failed : List (String × FetchOutcome)
deriving Repr, DecidableEq

/-- Spec-worded summary of a run: fetched observations, skipped locations,
and failed locations paired with their outcome. -/
def specRunSummary (cities : List String) (force : Bool) (fetch : String → FetchOutcome)
    (data : List Entry) (now : Int) : RunSummary :=
  { fetched := fetchedEntries cities force fetch data now
    skipped := skippedCities cities data force now
    failed := (taskCities cities data force now).filterMap fun c =>
      match fetch c with
      | .got _ => none
      | r => some (c, r) }

/-- C4 counterexample: a run whose single fetch fails (returns None) reports
nothing at all — no returned value and no console line records the failure —
while the spec's RunSummary would list the failed location with its outcome.
The claim that every run returns a summary separately enumerating the failed
locations with their error detail is therefore false of the code. -/
theorem run_summary_counterexample :
    (fetch_and_log_weather ["London"] true (fun _ => .got_none) [] 0).events = [] ∧
    (specRunSummary ["London"] true (fun _ => .got_none) [] 0).failed
      = [("London", .got_none)] := by decide

/-- C4 amended: the run returns no summary value (the coroutine returns
None); it reports through console output, whose lines enumerate exactly the
skipped locations, the fetched observations, and the captured exceptions —
fetches that fail by returning None appear in none of them. -/
theorem run_report_events (cities : List String) (force : Bool)
    (fetch : String → FetchOutcome) (fileLog : List Entry) (now : Int) :
    skipsOf (fetch_and_log_weather cities force fetch fileLog now).events
      = skippedCities cities fileLog force now ∧
    loggedOf (fetch_and_log_weather cities force fetch fileLog now).events
      = (fetchedEntries cities force fetch fileLog now).map
          (fun e => (e.city, e.temperature, e.description)) ∧
    errorsOf (fetch_and_log_weather cities force fetch fileLog now).events
      = raisedMessages ((taskCities cities fileLog force now).map fetch) :=
  run_report_eq cities force fetch fileLog now

/-! Fetch client model: fetch_weather_data (weather_logger.py:51-79).  The
HTTP interaction is an oracle: either the request raised (connection,
timeout, ...) or a response with a status arrived, in which case reading the
expected fields main.temp, weather[0].description, main.humidity out of the
json body either produced them or raised (malformed body, missing key).
Everything happens inside the try-block, whose raise is modelled by the
error side of fetch_body; the except-branch collapses it to None. -/

/-- The fields the source extracts from a well-formed 200 response body. -/
structure Payload where
  temp : Rat
  description : String
  humidity : Int
deriving Repr, DecidableEq

/-- Outcome of reading the expected fields from the response body. -/
inductive BodyParse where
  | fields (p : Payload)
  | failed (msg : String)
deriving Repr, DecidableEq

/-- Outcome of the HTTP request itself. -/
inductive HttpResult where
  | response (status : Nat) (parse : BodyParse)
  | raised (msg : String)
deriving Repr, DecidableEq

/-- The try-block of fetch_weather_data: error means the block raised. -/
def fetch_body (city : String) (r : HttpResult) (utcNow localNow : Int) :
    Except String (Option Entry) :=
  match r with
  | .raised msg => .error msg
  | .response status parse =>
    if status = 200 then
      match parse with
      | .failed msg => .error msg
      | .fields p =>
        .ok (some { city := city, temperature := p.temp, description := p.description
                    humidity := p.humidity, utc_timestamp := utcNow
                    local_timestamp := localNow })
    else .ok none

/-- Translation of WeatherLogger.fetch_weather_data: the try-block, with the
except-branch turning any raise into None. -/
def fetch_weather_data (city : String) (r : HttpResult) (utcNow localNow : Int) :
    Option Entry :=
  match fetch_body city r utcNow localNow with
  | .ok res => res
  | .error _ => none

/-- How a coroutine returning an Option lands in the gather results: a value
or None, never a captured exception. -/
def liftOutcome : Option Entry → FetchOutcome
  | some e => .got e
  | none => .got_none

theorem raisedMessages_map_liftOutcome (f : String → Option Entry) (cs : List String) :
    raisedMessages (cs.map fun c => liftOutcome (f c)) = [] := by
  induction cs with
  | nil => rfl
  | cons c cs ih =>
    cases h : f c <;>
      simpa [raisedMessages, liftOutcome, List.filterMap_cons, h] using ih

/-- C10: fetch_weather_data never raises — a raised request, a non-200
status, and a failed body read all collapse to None (only a 200 response
with all expected fields yields an observation), so in a run whose fetches
go through fetch_weather_data the gather loop's exception branch never
fires: no Error line is ever printed. -/
theorem fetch_weather_data_total (city : String) (r : HttpResult) (u l : Int) :
    (∀ msg, r = .raised msg → fetch_weather_data city r u l = none) ∧
    (∀ status p, r = .response status p → status ≠ 200 →
      fetch_weather_data city r u l = none) ∧
    (∀ msg, r = .response 200 (.failed msg) → fetch_weather_data city r u l = none) ∧
    (∀ p, r = .response 200 (.fields p) →
      fetch_weather_data city r u l
        = some { city := city, temperature := p.temp, description := p.description
                 humidity := p.humidity, utc_timestamp := u, local_timestamp := l }) ∧
    (∀ (cities : List String) (force : Bool) (fileLog : List Entry) (now : Int)
        (resp : String → HttpResult),
      errorsOf (fetch_and_log_weather cities force
          (fun c => liftOutcome (fetch_weather_data c (resp c) u l)) fileLog now).events
        = []) := by
  refine ⟨?_, ?_, ?_, ?_, ?_⟩
  · rintro msg rfl
    rfl
  · rintro status p rfl hs
    simp [fetch_weather_data, fetch_body, hs]
  · rintro msg rfl
    rfl
  · rintro p rfl
    rfl
  · intro cities force fileLog now resp
    obtain ⟨-, -, h3⟩ := run_report_eq cities force
      (fun c => liftOutcome (fetch_weather_data c (resp c) u l)) fileLog now
    rw [h3, raisedMessages_map_liftOutcome]

/-! Store-load model: load_data (weather_logger.py:132-144).  The data file
is abstracted at the JSON level: absent, text json.load rejects, or a parsed
JSON value — which is either an array of records or some other JSON value
(number, string, object, ...), kept abstract as its source text since
load_data never inspects it. -/

inductive JsonValue where
  | list (entries : List Entry)
  | other (text : String)
deriving Repr, DecidableEq

inductive FileState where
  | missing
  | unparsable (text : String)
  | parsed (v : JsonValue)
deriving Repr, DecidableEq

/-- Translation of WeatherLogger.load_data: a missing file yields [], a
JSONDecodeError is caught and yields [], and otherwise the parsed JSON value
is returned unchanged — the source never checks that it is a list. -/
def load_data : FileState → JsonValue
  | .missing => .list []
  | .unparsable _ => .list []
  | .parsed v => v

/-- C9 counterexample: a data file holding the valid JSON text 5 is a state
of the data file for which load_data does not return a list — the parsed
number comes back unchanged — so the claim that every state yields a list is
false (only missing or JSON-invalid contents are normalised to the empty
list). -/
theorem load_data_counterexample :
    load_data (.parsed (.other "5")) = .other "5" ∧
    ∀ l : List Entry, load_data (.parsed (.other "5")) ≠ .list l :=
  ⟨rfl, fun _ h => JsonValue.noConfusion h⟩

/-- C9 amended: load_data never raises at the modelled JSON level, and it
returns the empty list exactly for the two failure states (missing file,
unparsable contents); any contents that parse are returned as-is, which is a
list only when the file holds a JSON array. -/
theorem load_data_spec (fs : FileState) :
    ((fs = .missing ∨ ∃ t, fs = .unparsable t) → load_data fs = .list []) ∧
    (∀ v, fs = .parsed v → load_data fs = v) := by
  constructor
  · rintro (rfl | ⟨t, rfl⟩) <;> rfl
  · rintro v rfl
    rfl

/-! Analytics: get_city_averages (weather_logger.py:186-215).  The grouping
dict is keyed by the exact stored city string, keys in insertion (first
appearance) order; each row displays the average through the f-string
"%.1f", modelled by its value in tenths of a degree (Python float repr for
the magnitudes involved behaves as exact decimal rounding, half to even);
the sort key float(x[1].replace(...)) equals that value divided by ten, so
comparing keys is comparing tenths.  Python's stable list.sort is modelled
by insertion sort, stable for a total preorder. -/

/-- Keys of the city_data dict in insertion order (first appearance). -/
def cityKeys (data : List Entry) : List String :=
  data.foldl (fun ks e => if e.city ∈ ks then ks else ks ++ [e.city]) []

/-- The temperatures grouped under key c: exact string match, log order. -/
def cityTemps (data : List Entry) (c : String) : List Rat :=
  (data.filter fun e => e.city == c).map (·.temperature)

/-- The group average sum(temps)/len(temps) before display rounding. -/
def trueMean (data : List Entry) (c : String) : Rat :=
  (cityTemps data c).sum / ((cityTemps data c).length : Rat)

/-- Round half to even, the rounding "%.1f" applies at the tenths digit. -/
def roundHalfEven (q : Rat) : Int :=
  if q - ⌊q⌋ < 1/2 then ⌊q⌋
  else if q - ⌊q⌋ > 1/2 then ⌊q⌋ + 1
  else if ⌊q⌋ % 2 = 0 then ⌊q⌋ else ⌊q⌋ + 1

/-- One displayed row of the averages table: city, the displayed average in
tenths of a degree, and the count of data points. -/
structure AvgRow where
  city : String
  avgTenths : Int
  count : Nat
deriving Repr, DecidableEq

/-- The row the loop at weather_logger.py:203-207 builds for key c. -/
def avgRowOf (data : List Entry) (c : String) : AvgRow :=
  { city := c
    avgTenths := roundHalfEven (10 * trueMean data c)
    count := (cityTemps data c).length }

/-- The sort order of averages.sort: ascending displayed average. -/
def rowLE (a b : AvgRow) : Prop := a.avgTenths ≤ b.avgTenths

instance : DecidableRel rowLE := fun a b => Int.decLe a.avgTenths b.avgTenths

instance : IsTotal AvgRow rowLE := ⟨fun a b => Int.le_total a.avgTenths b.avgTenths⟩

instance : IsTrans AvgRow rowLE := ⟨fun _ _ _ h1 h2 => le_trans h1 h2⟩

/-- Translation of WeatherLogger.get_city_averages: empty data prints a
message and returns, otherwise group by exact city string, build one row per
group, and stable-sort by the displayed average. -/
def get_city_averages (data : List Entry) : Option (List AvgRow) :=
  if data.isEmpty then none
  else some (List.insertionSort rowLE ((cityKeys data).map (avgRowOf data)))

theorem mem_foldl_keys (data : List Entry) (acc : List String) (c : String) :
    c ∈ data.foldl (fun ks e => if e.city ∈ ks then ks else ks ++ [e.city]) acc ↔
      c ∈ acc ∨ ∃ e ∈ data, e.city = c := by
  induction data generalizing acc with
  | nil => simp
  | cons e es ih =>
    rw [List.foldl_cons, ih]
    by_cases h : e.city ∈ acc
    · rw [if_pos h]
      constructor
      · rintro (hc | ⟨x, hx, hxc⟩)
        · exact Or.inl hc
        · exact Or.inr ⟨x, List.mem_cons_of_mem e hx, hxc⟩
      · rintro (hc | ⟨x, hx, hxc⟩)
        · exact Or.inl hc
        · rcases List.mem_cons.mp hx with rfl | hx'
          · exact Or.inl (hxc ▸ h)
          · exact Or.inr ⟨x, hx', hxc⟩
    · rw [if_neg h]
      constructor
      · rintro (hc | ⟨x, hx, hxc⟩)
        · rcases List.mem_append.mp hc with h1 | h1
          · exact Or.inl h1
          · exact Or.inr ⟨e, List.mem_cons_self e es, (List.mem_singleton.mp h1).symm⟩
        · exact Or.inr ⟨x, List.mem_cons_of_mem e hx, hxc⟩
      · rintro (hc | ⟨x, hx, hxc⟩)
        · exact Or.inl (List.mem_append.mpr (Or.inl hc))
        · rcases List.mem_cons.mp hx with rfl | hx'
          · exact Or.inl (List.mem_append.mpr (Or.inr (List.mem_singleton.mpr hxc.symm)))
          · exact Or.inr ⟨x, hx', hxc⟩

theorem mem_cityKeys (data : List Entry) (c : String) :
    c ∈ cityKeys data ↔ ∃ e ∈ data, e.city = c := by
  rw [cityKeys, mem_foldl_keys]
  simp

theorem nodup_foldl_keys (data : List Entry) (acc : List String) (h : acc.Nodup) :
    (data.foldl (fun ks e => if e.city ∈ ks then ks else ks ++ [e.city]) acc).Nodup := by
  induction data generalizing acc with
  | nil => exact h
  | cons e es ih =>
    rw [List.foldl_cons]
    apply ih
    by_cases hm : e.city ∈ acc
    · rwa [if_pos hm]
    · rw [if_neg hm]
      refine List.Nodup.append h (List.nodup_singleton _) ?_
      intro x hx hxe
      rw [List.mem_singleton] at hxe
      exact hm (hxe ▸ hx)

theorem nodup_cityKeys (data : List Entry) : (cityKeys data).Nodup :=
  nodup_foldl_keys data [] List.nodup_nil

/-- Log exhibiting the C6 divergence: group means 10.04 for A and 10.01 for
B both display as 10.0, so the sort key ties and the stable sort keeps
insertion order A, B — descending in true mean. -/
def averagesCexLog : List Entry :=
  [ { city := "A", temperature := 251/25, description := "", humidity := 0
      utc_timestamp := 0, local_timestamp := 0 }
  , { city := "B", temperature := 1001/100, description := "", humidity := 0
      utc_timestamp := 0, local_timestamp := 0 } ]

theorem trueMean_cex_A : trueMean averagesCexLog "A" = 251/25 := by
  have h1 : cityTemps averagesCexLog "A" = [251/25] := by
    simp [cityTemps, averagesCexLog]
  rw [trueMean, h1]
  norm_num

theorem trueMean_cex_B : trueMean averagesCexLog "B" = 1001/100 := by
  have h1 : cityTemps averagesCexLog "B" = [1001/100] := by
    simp [cityTemps, averagesCexLog]
  rw [trueMean, h1]
  norm_num

theorem roundHalfEven_cex_A : roundHalfEven (10 * ((251 : Rat)/25)) = 100 := by
  rw [roundHalfEven]
  norm_num

theorem roundHalfEven_cex_B : roundHalfEven (10 * ((1001 : Rat)/100)) = 100 := by
  rw [roundHalfEven]
  norm_num

theorem averagesCex_rows :
    get_city_averages averagesCexLog
      = some [{ city := "A", avgTenths := 100, count := 1 },
              { city := "B", avgTenths := 100, count := 1 }] := by
  have hk : cityKeys averagesCexLog = ["A", "B"] := by decide
  have hA : avgRowOf averagesCexLog "A" = { city := "A", avgTenths := 100, count := 1 } := by
    rw [avgRowOf, trueMean_cex_A, roundHalfEven_cex_A]
    simp [cityTemps, averagesCexLog]
  have hB : avgRowOf averagesCexLog "B" = { city := "B", avgTenths := 100, count := 1 } := by
    rw [avgRowOf, trueMean_cex_B, roundHalfEven_cex_B]
    simp [cityTemps, averagesCexLog]
  rw [get_city_averages, if_neg (by decide), hk, List.map_cons, List.map_cons, List.map_nil,
    hA, hB]
  rfl

/-- C6 counterexample: on averagesCexLog the displayed output keeps the rows
in the order A, B although A's true group mean (10.04) exceeds B's (10.01) —
the code sorts by the rounded display value, so the result is not sorted
ascending by mean temperature as the claim states. -/
theorem city_averages_counterexample :
    ∃ rows, get_city_averages averagesCexLog = some rows ∧
      ¬ List.Sorted
          (fun a b => trueMean averagesCexLog a.city ≤ trueMean averagesCexLog b.city)
          rows := by
  refine ⟨_, averagesCex_rows, ?_⟩
  intro hs
  have h := (List.sorted_cons.mp hs).1 { city := "B", avgTenths := 100, count := 1 }
    (List.mem_cons_self _ _)
  rw [trueMean_cex_A, trueMean_cex_B] at h
  norm_num at h

/-- C6 amended: for a non-empty log, get_city_averages groups by the exact
case-sensitive stored city string (group keys are the distinct cities in
first-appearance order, covering every observation), reports per group the
count and the mean rounded to one decimal (the displayed value, in tenths),
and returns the rows sorted ascending by that displayed value — not by the
exact mean — with ties keeping group-creation order (stable sort). -/
theorem get_city_averages_spec (e : Entry) (es : List Entry) :
    ∃ rows, get_city_averages (e :: es) = some rows ∧
      List.Sorted rowLE rows ∧
      rows.Perm ((cityKeys (e :: es)).map (avgRowOf (e :: es))) ∧
      (cityKeys (e :: es)).Nodup ∧
      (∀ x ∈ e :: es, x.city ∈ cityKeys (e :: es)) ∧
      (∀ r ∈ rows, r = avgRowOf (e :: es) r.city) := by
  refine ⟨_, rfl, List.sorted_insertionSort rowLE _, List.perm_insertionSort rowLE _,
    nodup_cityKeys _, ?_, ?_⟩
  · intro x hx
    rw [mem_cityKeys]
    exact ⟨x, hx, rfl⟩
  · intro r hr
    rw [List.mem_insertionSort] at hr
    obtain ⟨c, _, rfl⟩ := List.mem_map.mp hr
    rfl

/-! Analytics: get_extremes (weather_logger.py:217-251).  Python's max and
min with a key return the first element attaining the extreme (they replace
the running value only on a strict improvement), modelled as folds over the
tail from the head. -/

/-- Python max(xs, key=temperature) over the nonempty list x :: xs. -/
def pyMaxTemp (x : String × Rat) (xs : List (String × Rat)) : String × Rat :=
  xs.foldl (fun acc y => if y.2 > acc.2 then y else acc) x

/-- Python min(xs, key=temperature) over the nonempty list x :: xs. -/
def pyMinTemp (x : String × Rat) (xs : List (String × Rat)) : String × Rat :=
  xs.foldl (fun acc y => if y.2 < acc.2 then y else acc) x

/-- The (city, temperature) pairs of the whole log, in log order. -/
def allPairs (data : List Entry) : List (String × Rat) :=
  data.map fun e => (e.city, e.temperature)

/-- The (city, temperature) pairs of entries whose local timestamp is
strictly within the last 24 hours (86400 s) of now. -/
def recentPairs (data : List Entry) (now : Int) : List (String × Rat) :=
  (data.filter fun e => decide (e.local_timestamp > now - 86400)).map
    fun e => (e.city, e.temperature)

/-- The four figures get_extremes prints. -/
structure Extremes where
  hottest_overall : String × Rat
  coldest_overall : String × Rat
  hottest_24h : String × Rat
  coldest_24h : String × Rat
deriving Repr, DecidableEq

/-- Translation of WeatherLogger.get_extremes: empty data prints a message
and returns; otherwise max/min over all (city, temperature) pairs and over
the 24-hour-recent ones, the latter falling back to the ("No data", 0)
sentinel when the recent list is empty. -/
def get_extremes (data : List Entry) (now : Int) : Option Extremes :=
  match data with
  | [] => none
  | e :: es =>
    some { hottest_overall := pyMaxTemp (e.city, e.temperature) (allPairs es)
           coldest_overall := pyMinTemp (e.city, e.temperature) (allPairs es)
           hottest_24h :=
             match recentPairs (e :: es) now with
             | [] => ("No data", 0)
             | r :: rs => pyMaxTemp r rs
           coldest_24h :=
             match recentPairs (e :: es) now with
             | [] => ("No data", 0)
             | r :: rs => pyMinTemp r rs }

theorem pyMaxTemp_spec (x : String × Rat) (xs : List (String × Rat)) :
    (∀ z ∈ x :: xs, z.2 ≤ (pyMaxTemp x xs).2) ∧
    (x :: xs).find? (fun z => z.2 == (pyMaxTemp x xs).2) = some (pyMaxTemp x xs) := by
  induction xs generalizing x with
  | nil =>
    constructor
    · intro z hz
      rw [List.mem_singleton] at hz
      rw [hz]
      exact le_refl _
    · rw [List.find?_cons_of_pos _ (by simp [pyMaxTemp])]
      rfl
  | cons y ys ih =>
    have hstep : pyMaxTemp x (y :: ys) = pyMaxTemp (if y.2 > x.2 then y else x) ys := rfl
    by_cases h : y.2 > x.2
    · rw [hstep, if_pos h]
      obtain ⟨ihb, ihf⟩ := ih y
      have hx : x.2 < (pyMaxTemp y ys).2 := lt_of_lt_of_le h (ihb y (List.mem_cons_self y ys))
      constructor
      · intro z hz
        rcases List.mem_cons.mp hz with rfl | hz'
        · exact le_of_lt hx
        · exact ihb z hz'
      · rw [List.find?_cons_of_neg _ (by simp; exact ne_of_lt hx), ihf]
    · rw [hstep, if_neg h]
      obtain ⟨ihb, ihf⟩ := ih x
      have hyx : y.2 ≤ x.2 := le_of_not_lt h
      have hxr : x.2 ≤ (pyMaxTemp x ys).2 := ihb x (List.mem_cons_self x ys)
      constructor
      · intro z hz
        rcases List.mem_cons.mp hz with rfl | hz'
        · exact hxr
        · rcases List.mem_cons.mp hz' with rfl | hz''
          · exact le_trans hyx hxr
          · exact ihb z (List.mem_cons_of_mem x hz'')
      · by_cases hx : x.2 = (pyMaxTemp x ys).2
        · have hpos : (fun z => z.2 == (pyMaxTemp x ys).2) x = true := by
            simp [hx]
          have hf1 : List.find? (fun z => z.2 == (pyMaxTemp x ys).2) (x :: y :: ys)
              = some x :=
            List.find?_cons_of_pos _ hpos
          have hf2 : List.find? (fun z => z.2 == (pyMaxTemp x ys).2) (x :: ys)
              = some x :=
            List.find?_cons_of_pos _ hpos
          rw [hf2] at ihf
          rw [hf1]
          exact ihf
        · have hxb : ¬ (fun z => z.2 == (pyMaxTemp x ys).2) x = true := by
            simp [hx]
          have hyb : ¬ (fun z => z.2 == (pyMaxTemp x ys).2) y = true := by
            simp only [beq_iff_eq]
            intro hy2
            exact hx (le_antisymm hxr (hy2 ▸ hyx))
          have hf1 : List.find? (fun z => z.2 == (pyMaxTemp x ys).2) (x :: y :: ys)
              = List.find? (fun z => z.2 == (pyMaxTemp x ys).2) (y :: ys) :=
            List.find?_cons_of_neg _ hxb
          have hf2 : List.find? (fun z => z.2 == (pyMaxTemp x ys).2) (y :: ys)
              = List.find? (fun z => z.2 == (pyMaxTemp x ys).2) ys :=
            List.find?_cons_of_neg _ hyb
          have hf3 : List.find? (fun z => z.2 == (pyMaxTemp x ys).2) (x :: ys)
              = List.find? (fun z => z.2 == (pyMaxTemp x ys).2) ys :=
            List.find?_cons_of_neg _ hxb
          rw [hf1, hf2, ← hf3]
          exact ihf

theorem pyMinTemp_spec (x : String × Rat) (xs : List (String × Rat)) :
    (∀ z ∈ x :: xs, (pyMinTemp x xs).2 ≤ z.2) ∧
    (x :: xs).find? (fun z => z.2 == (pyMinTemp x xs).2) = some (pyMinTemp x xs) := by
  induction xs generalizing x with
  | nil =>
    constructor
    · intro z hz
      rw [List.mem_singleton] at hz
      rw [hz]
      exact le_refl _
    · rw [List.find?_cons_of_pos _ (by simp [pyMinTemp])]
      rfl
  | cons y ys ih =>
    have hstep : pyMinTemp x (y :: ys) = pyMinTemp (if y.2 < x.2 then y else x) ys := rfl
    by_cases h : y.2 < x.2
    · rw [hstep, if_pos h]
      obtain ⟨ihb, ihf⟩ := ih y
      have hx : (pyMinTemp y ys).2 < x.2 := lt_of_le_of_lt (ihb y (List.mem_cons_self y ys)) h
      constructor
      · intro z hz
        rcases List.mem_cons.mp hz with rfl | hz'
        · exact le_of_lt hx
        · exact ihb z hz'
      · rw [List.find?_cons_of_neg _ (by simp; exact ne_of_gt hx), ihf]
    · rw [hstep, if_neg h]
      obtain ⟨ihb, ihf⟩ := ih x
      have hyx : x.2 ≤ y.2 := le_of_not_lt h
      have hxr : (pyMinTemp x ys).2 ≤ x.2 := ihb x (List.mem_cons_self x ys)
      constructor
      · intro z hz
        rcases List.mem_cons.mp hz with rfl | hz'
        · exact hxr
        · rcases List.mem_cons.mp hz' with rfl | hz''
          · exact le_trans hxr hyx
          · exact ihb z (List.mem_cons_of_mem x hz'')
      · by_cases hx : x.2 = (pyMinTemp x ys).2
        · have hpos : (fun z => z.2 == (pyMinTemp x ys).2) x = true := by
            simp [hx]
          have hf1 : List.find? (fun z => z.2 == (pyMinTemp x ys).2) (x :: y :: ys)
              = some x :=
            List.find?_cons_of_pos _ hpos
          have hf2 : List.find? (fun z => z.2 == (pyMinTemp x ys).2) (x :: ys)
              = some x :=
            List.find?_cons_of_pos _ hpos
          rw [hf2] at ihf
          rw [hf1]
          exact ihf
        · have hxb : ¬ (fun z => z.2 == (pyMinTemp x ys).2) x = true := by
            simp [hx]
          have hyb : ¬ (fun z => z.2 == (pyMinTemp x ys).2) y = true := by
            simp only [beq_iff_eq]
            intro hy2
            exact hx (le_antisymm (hy2 ▸ hyx) hxr)
          have hf1 : List.find? (fun z => z.2 == (pyMinTemp x ys).2) (x :: y :: ys)
              = List.find? (fun z => z.2 == (pyMinTemp x ys).2) (y :: ys) :=
            List.find?_cons_of_neg _ hxb
          have hf2 : List.find? (fun z => z.2 == (pyMinTemp x ys).2) (y :: ys)
              = List.find? (fun z => z.2 == (pyMinTemp x ys).2) ys :=
            List.find?_cons_of_neg _ hyb
          have hf3 : List.find? (fun z => z.2 == (pyMinTemp x ys).2) (x :: ys)
              = List.find? (fun z => z.2 == (pyMinTemp x ys).2) ys :=
            List.find?_cons_of_neg _ hxb
          rw [hf1, hf2, ← hf3]
          exact ihf

/-- Defined from the claim's words, for comparison with the source: the
observation with maximum temperature, ties broken by earliest
observed_at_local. -/
def earliestHottest : List Entry → Option Entry
  | [] => none
  | e :: es =>
    let m := es.foldl (fun acc x => max acc x.temperature) e.temperature
    match (e :: es).filter (fun x => x.temperature == m) with
    | [] => none
    | c :: cs =>
      some (cs.foldl
        (fun acc y => if y.local_timestamp < acc.local_timestamp then y else acc) c)

/-- Log exhibiting the C7 divergence: cities A (local time 100) and B (local
time 50) both at 30 degrees. -/
def extremesCexLog : List Entry :=
  [ { city := "A", temperature := 30, description := "", humidity := 0
      utc_timestamp := 0, local_timestamp := 100 }
  , { city := "B", temperature := 30, description := "", humidity := 0
      utc_timestamp := 0, local_timestamp := 50 } ]

/-- C7 counterexample: with two observations tied at the maximum
temperature, the code reports the one appearing first in the log (A), while
the claim's tie-break — earliest observed_at_local — selects the other one
(B, local time 50 < 100).  The claim's tie-break rule is false of the
code. -/
theorem extremes_tie_counterexample :
    (∃ E, get_extremes extremesCexLog 0 = some E ∧ E.hottest_overall = ("A", 30)) ∧
    (∃ b, earliestHottest extremesCexLog = some b ∧ b.city = "B") ∧
    ("A" : String) ≠ "B" := by
  refine ⟨⟨_, rfl, ?_⟩, ⟨_, rfl, ?_⟩, ?_⟩ <;> decide

/-- C7 amended: for a non-empty log, get_extremes reports the city and
temperature of the observation with maximum temperature and of the one with
minimum temperature, over the entire log and over the observations whose
local timestamp is strictly within the last 24 hours of now; ties are broken
by earliest position in the log (the first extreme entry in log order), not
by earliest observed_at_local; an empty 24-hour set yields the sentinel
("No data", 0) for both 24-hour figures instead of failing. -/
theorem get_extremes_spec (e : Entry) (es : List Entry) (now : Int) :
    ∃ E, get_extremes (e :: es) now = some E ∧
      (∀ z ∈ allPairs (e :: es), z.2 ≤ E.hottest_overall.2) ∧
      (allPairs (e :: es)).find? (fun z => z.2 == E.hottest_overall.2)
        = some E.hottest_overall ∧
      (∀ z ∈ allPairs (e :: es), E.coldest_overall.2 ≤ z.2) ∧
      (allPairs (e :: es)).find? (fun z => z.2 == E.coldest_overall.2)
        = some E.coldest_overall ∧
      (recentPairs (e :: es) now = [] →
        E.hottest_24h = ("No data", 0) ∧ E.coldest_24h = ("No data", 0)) ∧
      (∀ r rs, recentPairs (e :: es) now = r :: rs →
        (∀ z ∈ r :: rs, z.2 ≤ E.hottest_24h.2) ∧
        (r :: rs).find? (fun z => z.2 == E.hottest_24h.2) = some E.hottest_24h ∧
        (∀ z ∈ r :: rs, E.coldest_24h.2 ≤ z.2) ∧
        (r :: rs).find? (fun z => z.2 == E.coldest_24h.2) = some E.coldest_24h) := by
  refine ⟨_, rfl, ?_, ?_, ?_, ?_, ?_, ?_⟩
  · have h := (pyMaxTemp_spec (e.city, e.temperature) (allPairs es)).1
    intro z hz
    exact h z hz
  · exact (pyMaxTemp_spec (e.city, e.temperature) (allPairs es)).2
  · have h := (pyMinTemp_spec (e.city, e.temperature) (allPairs es)).1
    intro z hz
    exact h z hz
  · exact (pyMinTemp_spec (e.city, e.temperature) (allPairs es)).2
  · intro h
    constructor <;> simp only [h]
  · intro r rs h
    simp only [h]
    exact ⟨(pyMaxTemp_spec r rs).1, (pyMaxTemp_spec r rs).2,
      (pyMinTemp_spec r rs).1, (pyMinTemp_spec r rs).2⟩

/-! Analytics: plot_temperature_trend (weather_logger.py:253-288).  The
plotted series is the (local timestamp, temperature) pairs of the
case-insensitive matches, in log order; rendering is external.  Both early
returns — empty log, no matching entry — print a message and plot nothing,
modelled as none. -/

/-- Translation of WeatherLogger.plot_temperature_trend: none for an empty
log or a location with no case-insensitive match, otherwise the matching
(timestamp, temperature) series in log order. -/
def plot_temperature_trend (city : String) (data : List Entry) :
    Option (List (Int × Rat)) :=
  if data.isEmpty then none
  else
    let city_data := data.filter (matchesCity city)
    if city_data.isEmpty then none
    else some (city_data.map fun e => (e.local_timestamp, e.temperature))

/-- C8: the trend query matches stored locations case-insensitively
(matchesCity compares lowered strings); it yields the no-data result exactly
when no observation matches — never an empty-but-successful series — and any
successful series is the matching observations' (timestamp, temperature)
pairs in log order. -/
theorem trend_no_data (city : String) (data : List Entry) :
    (plot_temperature_trend city data = none ↔ data.filter (matchesCity city) = []) ∧
    (∀ ps, plot_temperature_trend city data = some ps →
      ps = (data.filter (matchesCity city)).map fun e => (e.local_timestamp, e.temperature)) := by
  rw [plot_temperature_trend]
  split
  · rename_i h
    rw [List.isEmpty_iff] at h
    subst h
    exact ⟨by simp, fun ps hps => by cases hps⟩
  · dsimp only
    split
    · rename_i h2
      rw [List.isEmpty_iff] at h2
      exact ⟨by simp [h2], fun ps hps => by cases hps⟩
    · rename_i h2
      rw [List.isEmpty_iff] at h2
      constructor
      · constructor
        · intro h
          cases h
        · intro hf
          exact absurd hf h2
      · intro ps hps
        cases hps
        rfl

end WeatherLogger
